import Mathlib

/-!
Verification of the DocuMind ingestion pipeline.

This file gives a shallow embedding, in Lean 4, of the parts of the
DocuMind source that the claims concern:

* the ChromaDB-backed vector-store helpers in
  `src/services/memory_service.py` (`index_chunks`, `check_hash_exists`,
  `get_chunks_by_hash`),
* the fast-track / deduplication portion of
  `src/pipeline/document_pipeline.py`,
* the MongoDB session-document updates of `src/services/db_service.py`
  (`save_batch_to_mongodb`, `delete_file_from_session`),
* the structuring-agent guardrail and the table-analysis function of
  `src/services/llm_service.py`,
* the OCR acceptance test of `src/services/ocr_service.py` and the VLM
  image selection of `src/services/vlm_service.py`,
* the semantic cache lookup of `src/services/cache_service.py`,
* the row-based Excel/CSV chunker of `src/services/rag_service.py`.

The vector store is modelled as a list of entries (text plus optional
metadata record); the Mongo session store as a record with a `files`
array and a `files_count` counter; external effects (embedding model,
LLM, OCR engine, Redis) are abstracted as explicit inputs.
-/

namespace DocuMind

/-- Metadata attached to one vector-store chunk.  Mirrors the metadata
dictionaries built in `document_pipeline.py` (lines 348-357, 400-408);
each field is optional because Python dictionaries may lack keys, and
`dict.get` returns `None` for a missing key. -/
structure ChunkMeta where
  source : Option String := none
  doc_id : Option String := none
  source_id : Option String := none
  author : Option String := none
  session_id : Option String := none
  file_hash : Option String := none
  chunk_type : Option String := none
deriving DecidableEq, Repr

/-- One row of the ChromaDB collection: the stored text plus its
metadata.  `add_texts` called without `metadatas` stores entries whose
metadata is absent, hence the `Option`. -/
structure Entry where
  text : String
  meta : Option ChunkMeta
deriving DecidableEq, Repr

/-- The vector-store collection (`global_memory`), in insertion order. -/
abbrev Store := List Entry

/-- Safety bound from `memory_service.index_chunks` (line 73). -/
def MAX_CHUNK_CHARS : Nat := 6000

/-- Per-chunk truncation loop body of `memory_service.index_chunks`
(lines 76-81): a chunk longer than 6000 characters is cut to its first
6000 characters followed by an ellipsis. -/
def truncateChunk (chunk : String) : String :=
  if chunk.length > MAX_CHUNK_CHARS then (chunk.take MAX_CHUNK_CHARS) ++ "..." else chunk

/-- The branch condition of `memory_service.index_chunks` line 88:
`if metadata and len(metadata) == len(safe_chunks)`.  A `None` or empty
metadata list is falsy in Python. -/
def metadataUsable (metadata : Option (List ChunkMeta)) (safeChunks : List String) : Bool :=
  match metadata with
  | none => false
  | some ms => !ms.isEmpty && ms.length == safeChunks.length

/-- Embedding of `memory_service.index_chunks` (lines 58-93): truncate
oversized chunks, then insert every chunk, pairing it with its metadata
exactly when a metadata list of matching (nonzero) length was given. -/
def index_chunks (store : Store) (chunks : List String)
    (metadata : Option (List ChunkMeta)) : Store :=
  if metadataUsable metadata (chunks.map truncateChunk) then
    store ++ List.zipWith (fun t m => Entry.mk t (some m))
      (chunks.map truncateChunk) (metadata.getD [])
  else
    store ++ (chunks.map truncateChunk).map (fun t => Entry.mk t none)

/-- Chroma filter `{"file_hash": h}`: an entry matches when its metadata
is present and carries that hash. -/
def matchesHash (h : String) (e : Entry) : Bool :=
  match e.meta with
  | some m => m.file_hash == some h
  | none => false

/-- Chroma filter `{"$and": [{"file_hash": h}, {"session_id": s}]}`. -/
def matchesHashSession (h s : String) (e : Entry) : Bool :=
  match e.meta with
  | some m => m.file_hash == some h && m.session_id == some s
  | none => false

/-- Embedding of `memory_service.check_hash_exists` (lines 183-212):
with a truthy `session_id` the hash is looked up inside that session,
otherwise globally. -/
def check_hash_exists (store : Store) (file_hash : String)
    (session_id : Option String) : Bool :=
  match session_id with
  | some s => if s.isEmpty then store.any (matchesHash file_hash)
              else store.any (matchesHashSession file_hash s)
  | none => store.any (matchesHash file_hash)

/-- Result shape of `memory_service.get_chunks_by_hash` (the returned
`{"chunks": …, "metadata": …}` dictionary; the Chroma `ids` list is
not used by any caller we model and is omitted). -/
structure ChunkData where
  chunks : List String
  metadata : List ChunkMeta
deriving DecidableEq, Repr

/-- The `(document, metadata)` pairs returned by
`vectorstore.get(where={"file_hash": h})`: entries matching the filter
necessarily carry metadata. -/
def hashPaired (store : Store) (file_hash : String) : List (String × ChunkMeta) :=
  (store.filter (matchesHash file_hash)).filterMap
    (fun e => e.meta.map (fun m => (e.text, m)))

/-- Embedding of `memory_service.get_chunks_by_hash` (lines 215-256):
fetch all chunks with the given hash, then keep only the chunks whose
`session_id` equals that of the first chunk found. -/
def get_chunks_by_hash (store : Store) (file_hash : String) : Option ChunkData :=
  match hashPaired store file_hash with
  | [] => none
  | (t0, m0) :: rest =>
    let first_session := m0.session_id
    let uniq := ((t0, m0) :: rest).filter (fun p => p.2.session_id == first_session)
    some { chunks := uniq.map (fun p => p.1), metadata := uniq.map (fun p => p.2) }

/-! ### Pipeline ingest (document_pipeline.py) -/

/-- Input kinds detected at `document_pipeline.py` lines 85-105. -/
inductive InputKind
  | file
  | media
  | url
  | youtube
deriving DecidableEq, Repr

/-- Return value of one `pipeline(...)` invocation, restricted to what
the claims observe: the fast-track sentinel `("fast_tracked",
session_id)` (line 122), the clone return `(original_source_id,
session_id)` (line 155), or the normal `(base, result_ref)` pair of a
full run (line 422). -/
inductive PipelineResult
  | fastTracked (session_id : Option String)
  | cloned (original_source_id : String) (session_id : Option String)
  | processed (base : String)
deriving DecidableEq, Repr

/-- Outcome of an ingest: its return value together with the
vector-store contents after the call. -/
structure IngestOutcome where
  result : PipelineResult
  store : Store
deriving DecidableEq, Repr

/-- What the extraction/structuring stages of a full pipeline run
produce for RAG indexing (lines 169-413): the workspace directory and
the chunk texts with their metadata.  Extraction, OCR/VLM and the LLM
are external effects, so this is an input of the model. -/
structure ExtractionData where
  base : String
  chunks : List String
  metadata : List ChunkMeta
deriving DecidableEq, Repr

/-- Python `session_id or "default"` (lines 137, 354, 371, 405): a
`None` or empty session id falls back to `"default"`. -/
def sessionOrDefault : Option String → String
  | none => "default"
  | some s => if s.isEmpty then "default" else s

/-- The tail of a full pipeline run, `document_pipeline.py` lines
321-416: if the hash is already indexed anywhere the RAG indexing is
skipped, otherwise the extracted chunks are indexed; either way the
call returns the normal `(base, result_ref)` pair. -/
def fullProcess (file_hash : String) (store : Store) (ex : ExtractionData) :
    IngestOutcome :=
  if !file_hash.isEmpty && check_hash_exists store file_hash none then
    { result := .processed ex.base, store := store }
  else
    { result := .processed ex.base, store := index_chunks store ex.chunks (some ex.metadata) }

/-- Embedding of the deduplication control flow of `pipeline`
(`document_pipeline.py` lines 107-166 plus the indexing tail).  For
file and media inputs (lines 112-155): a hash already present in the
current session returns the sentinel untouched; a hash present only
globally clones the first-indexing session's chunks with their
`session_id` rewritten and returns the stored `source_id`.  URL and
YouTube inputs (lines 158-163) only compute their hash (the MD5 of the
URL string, abstracted here as the `file_hash` argument) and proceed
straight to the full run.  The MongoDB copy of the clone branch (lines
143-152) touches only the object store and is not modelled. -/
def pipelineIngest (kind : InputKind) (file_hash : String)
    (session_id : Option String) (store : Store) (ex : ExtractionData) :
    IngestOutcome :=
  match kind with
  | .file | .media =>
    if check_hash_exists store file_hash session_id then
      { result := .fastTracked session_id, store := store }
    else if check_hash_exists store file_hash none then
      match get_chunks_by_hash store file_hash with
      | some d =>
        if d.chunks.isEmpty then fullProcess file_hash store ex
        else
          { result := .cloned
              (match d.metadata with
               | [] => "unknown"
               | m :: _ => m.source_id.getD "unknown") session_id
            store := index_chunks store d.chunks
              (some (d.metadata.map
                (fun m => { m with session_id := some (sessionOrDefault session_id) }))) }
      | none => fullProcess file_hash store ex
    else fullProcess file_hash store ex
  | .url | .youtube => fullProcess file_hash store ex

/-! ### Mongo session documents (db_service.py) -/

/-- One element of a session's `files` array.  Only the fields the
modelled operations inspect are kept; `doc_id` is the field matched by
`delete_file_from_session`'s `$pull`. -/
structure FileRec where
  doc_id : Option String := none
  file_hash : Option String := none
  summary : Option String := none
deriving DecidableEq, Repr

/-- A session document of the Mongo collection, keyed by `_id =
session_id`. -/
structure SessionDoc where
  session_id : String
  author : String
  files : List FileRec
  files_count : Int
deriving DecidableEq, Repr

/-- Embedding of the `update_one(..., upsert=True)` of
`db_service.save_batch_to_mongodb` (lines 137-151) applied to the
current state of the session document (`none` = no document with this
`_id` yet).  `$push $each` appends the batch in order and `$inc` adds
its length; on insert the missing `files_count` starts from zero.  The
guard mirrors line 131: an empty batch performs no update. -/
def save_batch_upsert (doc : Option SessionDoc) (session_id author : String)
    (batch : List FileRec) : Option SessionDoc :=
  if batch.isEmpty then doc
  else
    match doc with
    | some d => some { d with author := author
                              files := d.files ++ batch
                              files_count := d.files_count + batch.length }
    | none => some { session_id := session_id
                     author := author
                     files := batch
                     files_count := (batch.length : Int) }

/-- Embedding of the `update_one` of
`db_service.delete_file_from_session` (lines 179-182) applied to a
matched session document: `$pull` removes every array element whose
`doc_id` equals the source id, and `$inc` decrements `files_count` by
one unconditionally. -/
def delete_file_update (doc : SessionDoc) (source_id : String) : SessionDoc :=
  { doc with files := doc.files.filter (fun f => !(f.doc_id == some source_id))
             files_count := doc.files_count - 1 }

/-- The invariant claimed for session documents: the stored counter
agrees with the length of the `files` array. -/
def filesCountInvariant (doc : SessionDoc) : Prop :=
  doc.files_count = (doc.files.length : Int)

/-! ### String helpers shared by several services -/

/-- Python `str.strip()`: drop leading and trailing whitespace.
(Defined over the character list so that it evaluates by `decide`.) -/
def pyStrip (s : String) : String :=
  String.mk (((s.data.dropWhile Char.isWhitespace).reverse.dropWhile Char.isWhitespace).reverse)

/-- Python truthiness of an optional string: `None` and `""` are falsy. -/
def strTruthy : Option String → Bool
  | none => false
  | some s => !s.isEmpty

/-- Helper for Python's substring test: does `sub` occur inside `l`? -/
def containsSubAux (sub : List Char) : List Char → Bool
  | [] => sub.isEmpty
  | c :: rest => List.isPrefixOf sub (c :: rest) || containsSubAux sub rest

/-- Python `sub in s` on strings. -/
def strContains (s sub : String) : Bool :=
  containsSubAux sub.data s.data

/-! ### OCR acceptance and VLM image selection
(ocr_service.py, vlm_service.py, document_pipeline.py lines 283-299) -/

/-- `CONFIDENCE_PRESETS["standard"]` of `ocr_service.py` line 85. -/
def CONFIDENCE_STANDARD : ℚ := 70/100

/-- `OCR_THRESHOLD` of `ocr_service.py` line 89. -/
def OCR_THRESHOLD : ℚ := CONFIDENCE_STANDARD

/-- Embedding of `ocr_service.should_use_ocr` (lines 210-213):
`(confidence >= threshold) and (text and len(text.strip()) > 5)`, with
the default threshold filled in for a `None` argument.  OCR confidences
are modelled as exact rationals. -/
def should_use_ocr (confidence : ℚ) (text : String) (threshold : Option ℚ) : Bool :=
  let t := threshold.getD OCR_THRESHOLD
  decide (t ≤ confidence) && (!text.isEmpty && decide (5 < (pyStrip text).length))

/-- An image on disk, by name and byte size.  Pixel contents live in
the external OCR/VLM engines and are not modelled. -/
structure ImageFile where
  name : String
  size : Nat
deriving DecidableEq, Repr

/-- `MIN_IMAGE_SIZE_KB` of `vlm_service.analyze_extracted_images`. -/
def MIN_IMAGE_SIZE_KB : Nat := 5

/-- `MAX_IMAGES_TO_ANALYZE` of `vlm_service.analyze_extracted_images`. -/
def MAX_IMAGES_TO_ANALYZE : Nat := 10

/-- The images on which `vlm_service.analyze_extracted_images` (lines
87-118) performs VLM API calls: those larger than 5 KB, sorted by size
descending (Python's stable sort), capped at 10.  The pipeline (line
296) invokes this on the full extracted image list, independently of
any OCR outcome. -/
def vlmSelectedImages (images : List ImageFile) : List ImageFile :=
  let valid := images.filter (fun i => i.size > MIN_IMAGE_SIZE_KB * 1024)
  (valid.mergeSort (fun a b => b.size ≤ a.size)).take MAX_IMAGES_TO_ANALYZE

/-! ### Structuring agent guardrail (llm_service.run_agent lines 135-165) -/

/-- The record written by the guardrail branch of `run_agent` (lines
146-156) when no content is available for the LLM. -/
structure AgentDefaultRecord where
  source_id : String
  source : String
  language : String
  author : String
  user_description : String
  summary : String
  tables_count : Nat
  file_hash : String
  clean_content : String
deriving DecidableEq, Repr

/-- Character limit applied to the LLM input text (line 136). -/
def TEXT_FOR_LLM_LIMIT : Nat := 3500

/-- The `has_content` test of `run_agent` line 139. -/
def runAgentHasContent (text_for_llm : String) (table_count images_count : Nat) : Bool :=
  decide (10 < (pyStrip text_for_llm).length) || decide (0 < table_count) ||
    decide (0 < images_count)

/-- The `basic_summary` expression of `run_agent` line 144:
`user_description if user_description and len(user_description) > 5
else f"Image file: {source_id}"`. -/
def basicSummary (user_description : Option String) (source_id : String) : String :=
  match user_description with
  | some ud => if !ud.isEmpty && decide (5 < ud.length) then ud
               else "Image file: " ++ source_id
  | none => "Image file: " ++ source_id

/-- Embedding of the content guardrail of `run_agent` (lines 135-165):
given the preprocessed text (`clean_text`, the result of
`preprocess_text` and `sanitize_for_json`; the empty file yields the
empty string), the table count and the number of OCR/VLM image
records, return the default record when the guardrail fires and `none`
when the LLM is invoked instead. -/
def run_agent_guard (clean_text : String) (table_count images_count : Nat)
    (source source_id author file_hash : String)
    (user_description : Option String) : Option AgentDefaultRecord :=
  if runAgentHasContent
      (if clean_text.length > TEXT_FOR_LLM_LIMIT
       then clean_text.take TEXT_FOR_LLM_LIMIT else clean_text)
      table_count images_count then none
  else some
    { source_id := source_id
      source := source
      language := "unknown"
      author := author
      user_description := user_description.getD ""
      summary := "No extractable text found. " ++ basicSummary user_description source_id
      tables_count := 0
      file_hash := file_hash
      clean_content := clean_text }

/-! ### Tables and the table-analysis stage
(rag_service.py, llm_service.analyze_tables_with_llm, pipeline lines 301-306) -/

/-- One table of `tables/tables.json`.  Excel sheets carry `sheet`, CSV
tables carry `name`; cell values are strings (the extractors stringify
every cell before saving, see `excel_extractor.py` lines 56-69 and
`table_utils.preprocess_excel_data`). -/
structure ExcelTable where
  sheet : Option String := none
  name : Option String := none
  headers : List String := []
  data : List (List String) := []
deriving DecidableEq, Repr

/-- The per-document artifact files the table-analysis stage touches:
the parsed `tables/tables.json` and the raw text of
`tables/analysis.json` (absent until written). -/
structure Workspace where
  tablesJson : Option (List ExcelTable)
  analysisJson : Option String
deriving DecidableEq, Repr

/-- Temperature of the table-analysis LLM call
(`llm_service.py` line 479). -/
def analyzeTablesTemperature : ℚ := 3/10

/-- Embedding of the body of `llm_service.analyze_tables_with_llm`
(lines 322-501) as its effect on the workspace: with no `tables.json`
or an empty table list nothing happens; otherwise the parsed JSON of
the LLM response (abstracted as `llmJson`; `none` models an LLM failure
or unparsable output, swallowed at line 498) is written to
`tables/analysis.json`. -/
def analyze_tables_with_llm (ws : Workspace) (llmJson : Option String) : Workspace :=
  match ws.tablesJson with
  | none => ws
  | some [] => ws
  | some _ =>
    match llmJson with
    | some j => { ws with analysisJson := some j }
    | none => ws

/-- Number of parameters of `async def analyze_tables_with_llm(base_dir)`
(`llm_service.py` line 322). -/
def analyzeTablesParamCount : Nat := 1

/-- Number of positional arguments at the pipeline call site
`analyze_tables_with_llm(base, source)` (`document_pipeline.py` line
304). -/
def pipelineTableAnalysisArgCount : Nat := 2

/-- Whether the pipeline awaits the coroutine at line 304 (it does
not: the call appears without `await`). -/
def pipelineTableAnalysisAwaited : Bool := false

/-- Embedding of the table-analysis stage of the pipeline (lines
301-306): calling a Python function with a positional argument count
different from its parameter count raises `TypeError`, which the
`except` at line 305 swallows; and calling an `async def` without
`await` merely creates a coroutine without running its body.  Only if
neither applied would the body of `analyze_tables_with_llm` run. -/
def pipelineTableAnalysisStage (ws : Workspace) (llmJson : Option String) : Workspace :=
  if pipelineTableAnalysisArgCount ≠ analyzeTablesParamCount then ws
  else if !pipelineTableAnalysisAwaited then ws
  else analyze_tables_with_llm ws llmJson

/-! ### Row-based Excel/CSV chunking (rag_service.create_excel_chunks) -/

/-- `table.get("sheet", table.get("name", "Unknown"))`
(`rag_service.py` line 92). -/
def sheetNameOf (t : ExcelTable) : String :=
  match t.sheet with
  | some s => s
  | none =>
    match t.name with
    | some n => n
    | none => "Unknown"

/-- The cell test of `rag_service.py` line 112: `if value and
str(value).strip()` (cells are strings, so this demands a nonempty
value with a nonempty strip). -/
def rowCellKept (v : String) : Bool :=
  !v.isEmpty && !(pyStrip v).isEmpty

/-- The `row_parts` list built at `rag_service.py` lines 109-114: one
`"<header>: <value>"` string per header whose column exists in the row
and whose cell passes the emptiness test.  `enumerate(headers)` with
the bound `col_idx < len(row)` pairs each header with the cell of the
same index, i.e. zips the two lists. -/
def rowParts (headers row : List String) : List String :=
  ((headers.zip row).filter (fun p => rowCellKept p.2)).map (fun p => p.1 ++ ": " ++ p.2)

/-- The chunk texts `create_excel_chunks` emits for one table
(`rag_service.py` lines 91-127): nothing for a table without headers
or data rows; otherwise, for each data row with a nonempty
`row_parts`, the text `"[<sheet> - Row <row_idx+1>] "` followed by the
comma-joined parts, where `enumerate(data_rows, start=1)` makes the
first data row index 1, printed as row 2.  (The parallel per-row
metadata list built at lines 104-121 is not consumed by any claim and
is not modelled.) -/
def tableChunks (t : ExcelTable) : List String :=
  if t.headers.isEmpty || t.data.isEmpty then []
  else
    t.data.enum.filterMap (fun p =>
      let parts := rowParts t.headers p.2
      if parts.isEmpty then none
      else some ("[" ++ sheetNameOf t ++ " - Row " ++ toString (p.1 + 2) ++ "] " ++
        String.intercalate ", " parts))

/-- The chunk-text list of `rag_service.create_excel_chunks` over the
whole `tables.json`. -/
def create_excel_chunks (tables : List ExcelTable) : List String :=
  tables.flatMap tableChunks

/-- Spec-side rendering of one row (refinement reference for C8, from
the spec's words): the pairs `"<hdr>: <v>"` for the header/cell pairs
whose cell is not empty. -/
def specRowPairs (headers row : List String) : List String :=
  (headers.zip row).filterMap
    (fun p => if (pyStrip p.2).isEmpty then none else some (p.1 ++ ": " ++ p.2))

/-- Spec-side chunk text for data row number `n` (refinement reference
for C8): `"[<sheet> - Row <n>] <hdr1>: <v1>, <hdr2>: <v2>, …"`. -/
def specRowChunk (sheet : String) (n : Nat) (headers row : List String) : String :=
  "[" ++ sheet ++ " - Row " ++ toString n ++ "] " ++
    String.intercalate ", " (specRowPairs headers row)

/-! ### Semantic cache lookup (cache_service.get_similar_cached_response) -/

/-- One decoded `rag:embedding:*` value, as consumed by the similarity
loop: the cosine similarity of its stored embedding against the
current query embedding (a floating-point computation, abstracted as
an exact rational score), and its `response_key`. -/
structure EmbeddingEntry where
  sim : ℚ
  response_key : String
deriving DecidableEq, Repr

/-- `self.similarity_threshold` (`cache_service.py` line 43). -/
def similarity_threshold : ℚ := 92/100

/-- One iteration of the selection loop of
`get_similar_cached_response` (lines 219-239): a readable candidate
(`none` models an expired key or a decode error, skipped by the
`continue`) replaces the best when its similarity is strictly
greater. -/
def bcStep (acc : ℚ × Option String) (c : Option EmbeddingEntry) : ℚ × Option String :=
  match c with
  | none => acc
  | some e => if acc.1 < e.sim then (e.sim, some e.response_key) else acc

/-- The full selection loop (lines 214-239), starting from
`best_similarity = 0.0` and no key. -/
def bestCandidate (cands : List (Option EmbeddingEntry)) : ℚ × Option String :=
  cands.foldl bcStep (0, none)

/-- A semantic cache hit as returned at lines 249-256: the cached
response marked `_semantic_match` with its `_similarity`. -/
structure SemanticHit where
  response : String
  semantic_match : Bool
  similarity : ℚ
deriving DecidableEq, Repr

/-- Embedding of `cache_service.get_similar_cached_response` (lines
170-262).  `cands` is the decoded candidate list in Redis scan order
(the scan loop collects at most `max_candidates` keys); `respStore`
models `redis.get` on response keys.  After the argmax scan, the hit
is returned only when the best similarity reaches the threshold, the
response key passes the substring test `":<source_id>" in key` for a
truthy `source_id`, and the response key is still present. -/
def get_similar_cached_response (cands : List (Option EmbeddingEntry))
    (respStore : String → Option String) (source_id : Option String)
    (max_candidates : Nat) : Option SemanticHit :=
  if (cands.take max_candidates).isEmpty then none
  else if similarity_threshold ≤ (bestCandidate (cands.take max_candidates)).1 then
    match (bestCandidate (cands.take max_candidates)).2 with
    | none => none
    | some key =>
      if strTruthy source_id && !(strContains key (":" ++ source_id.getD "")) then none
      else
        match respStore key with
        | some resp => some { response := resp, semantic_match := true,
                              similarity := (bestCandidate (cands.take max_candidates)).1 }
        | none => none
  else none

/-! ## Theorems -/

/-- Helper: the stored texts of a zipped text/metadata insertion are
the texts themselves. -/
theorem map_text_zipWith (ts : List String) (ms : List ChunkMeta)
    (h : ms.length = ts.length) :
    (List.zipWith (fun t m => Entry.mk t (some m)) ts ms).map (fun e => e.text) = ts := by
  induction ts generalizing ms with
  | nil => simp
  | cons t ts ih =>
    cases ms with
    | nil => simp at h
    | cons m ms =>
      simp only [List.length_cons, Nat.succ_inj] at h
      simp [ih ms h]

/-- Claim C9: vector-store indexing inserts exactly one text per input
chunk, in order; a chunk longer than 6000 characters is stored as its
first 6000 characters followed by an ellipsis, and shorter chunks are
stored unchanged — in both metadata branches of `index_chunks`. -/
theorem C9_index_chunks_counts_and_truncation (store : Store) (chunks : List String)
    (metadata : Option (List ChunkMeta)) :
    (index_chunks store chunks metadata).length = store.length + chunks.length ∧
    ((index_chunks store chunks metadata).drop store.length).map (fun e => e.text) =
      chunks.map (fun c => if 6000 < c.length then c.take 6000 ++ "..." else c) := by
  have htr : ∀ c : String, truncateChunk c =
      if 6000 < c.length then c.take 6000 ++ "..." else c := fun c => rfl
  by_cases hmu : metadataUsable metadata (chunks.map truncateChunk) = true
  · obtain ⟨ms, rfl⟩ : ∃ ms, metadata = some ms := by
      cases metadata with
      | none => simp [metadataUsable] at hmu
      | some ms => exact ⟨ms, rfl⟩
    have hlen : ms.length = chunks.length := by
      simp only [metadataUsable, Bool.and_eq_true, beq_iff_eq, List.length_map] at hmu
      exact hmu.2
    have hrw : index_chunks store chunks (some ms) =
        store ++ List.zipWith (fun t m => Entry.mk t (some m))
          (chunks.map truncateChunk) ms := by
      unfold index_chunks
      rw [if_pos hmu, Option.getD_some]
    rw [hrw]
    constructor
    · rw [List.length_append, List.length_zipWith, List.length_map, hlen, min_self]
    · rw [List.drop_left, map_text_zipWith _ _ (by rw [List.length_map, hlen])]
      exact List.map_congr_left (fun c _ => htr c)
  · have hrw : index_chunks store chunks metadata =
        store ++ (chunks.map truncateChunk).map (fun t => Entry.mk t none) := by
      unfold index_chunks
      rw [if_neg hmu]
    rw [hrw]
    constructor
    · rw [List.length_append, List.length_map, List.length_map]
    · rw [List.drop_left, List.map_map, List.map_map]
      exact List.map_congr_left (fun c _ => htr c)

/-- Claim C10: `index_chunks` attaches the i-th metadata record to the
i-th inserted chunk whenever a metadata list of matching length is
supplied, and inserts every chunk without any metadata whenever the
lengths differ or no list is given — so such chunks carry neither a
`file_hash` nor a `session_id`. -/
theorem C10_index_chunks_metadata_iff :
    (∀ (store : Store) (chunks : List String) (ms : List ChunkMeta) (i : Nat)
        (c : String) (m : ChunkMeta),
        ms.length = chunks.length → chunks[i]? = some c → ms[i]? = some m →
        ((index_chunks store chunks (some ms)).drop store.length)[i]? =
          some (Entry.mk (truncateChunk c) (some m)))
    ∧ (∀ (store : Store) (chunks : List String) (ms : List ChunkMeta),
        ms.length ≠ chunks.length →
        ∀ e ∈ (index_chunks store chunks (some ms)).drop store.length, e.meta = none)
    ∧ (∀ (store : Store) (chunks : List String),
        ∀ e ∈ (index_chunks store chunks none).drop store.length, e.meta = none) := by
  refine ⟨?_, ?_, ?_⟩
  · intro store chunks ms i c m hlen hc hm
    have hne : ms ≠ [] := by
      intro hnil
      subst hnil
      simp at hm
    have hmu : metadataUsable (some ms) (chunks.map truncateChunk) = true := by
      simp [metadataUsable, hne, hlen]
    unfold index_chunks
    rw [if_pos hmu, Option.getD_some, List.drop_left]
    rw [List.getElem?_zipWith, List.getElem?_map, hc, hm, Option.map_some']
  · intro store chunks ms hlen e he
    have hmu : ¬metadataUsable (some ms) (chunks.map truncateChunk) = true := by
      intro h
      simp only [metadataUsable, Bool.and_eq_true, beq_iff_eq, List.length_map] at h
      exact hlen h.2
    unfold index_chunks at he
    rw [if_neg hmu, List.drop_left, List.map_map, List.mem_map] at he
    obtain ⟨c, -, rfl⟩ := he
    rfl
  · intro store chunks e he
    have hmu : ¬metadataUsable none (chunks.map truncateChunk) = true := by
      simp [metadataUsable]
    unfold index_chunks at he
    rw [if_neg hmu, List.drop_left, List.map_map, List.mem_map] at he
    obtain ⟨c, -, rfl⟩ := he
    rfl

/-- Witness for C10 at concrete inputs: with one chunk and one metadata
record the record is attached; with one chunk and two records every
inserted chunk has no metadata. -/
theorem C10_index_chunks_metadata_iff_witness :
    ((index_chunks [] ["ab"] (some [{ file_hash := some "h", session_id := some "s" }])).drop
        0)[0]? =
      some (Entry.mk (truncateChunk "ab")
        (some { file_hash := some "h", session_id := some "s" })) ∧
    ∀ e ∈ (index_chunks [] ["ab"]
        (some [{ file_hash := some "h" }, { file_hash := some "h2" }])).drop 0,
      e.meta = none := by
  constructor
  · exact C10_index_chunks_metadata_iff.1 [] ["ab"]
      [{ file_hash := some "h", session_id := some "s" }] 0 "ab"
      { file_hash := some "h", session_id := some "s" } rfl rfl rfl
  · exact C10_index_chunks_metadata_iff.2.1 [] ["ab"]
      [{ file_hash := some "h" }, { file_hash := some "h2" }] (by decide)

/-- Claim C3 (bug evidence): `delete_file_from_session`'s update pairs
an unconditional `$inc files_count -1` with the `$pull`, so deleting a
`source_id` that is not in the session decrements the counter without
removing anything: a session satisfying `files_count = len(files)`
before the call violates it afterwards.  (Saving keeps the invariant,
see `save_batch_preserves_files_count`.) -/
theorem C3_delete_breaks_files_count :
    filesCountInvariant
      { session_id := "s1", author := "a",
        files := [{ doc_id := some "a", file_hash := some "h" }], files_count := 1 } ∧
    (delete_file_update
      { session_id := "s1", author := "a",
        files := [{ doc_id := some "a", file_hash := some "h" }], files_count := 1 }
      "b").files = [{ doc_id := some "a", file_hash := some "h" }] ∧
    ¬ filesCountInvariant (delete_file_update
      { session_id := "s1", author := "a",
        files := [{ doc_id := some "a", file_hash := some "h" }], files_count := 1 }
      "b") := by
  refine ⟨rfl, by decide, ?_⟩
  intro h
  simp only [filesCountInvariant, delete_file_update] at h
  revert h
  decide

/-- Helper (not a claim theorem): the batch-save upsert preserves the
`files_count = len(files)` invariant, for both the insert and the
append case. -/
theorem save_batch_preserves_files_count (doc : Option SessionDoc)
    (session_id author : String) (batch : List FileRec)
    (h : ∀ d, doc = some d → filesCountInvariant d) :
    ∀ d, save_batch_upsert doc session_id author batch = some d →
      filesCountInvariant d := by
  intro d hd
  unfold save_batch_upsert at hd
  by_cases hb : batch.isEmpty = true
  · rw [if_pos hb] at hd
    exact h d hd
  · rw [if_neg hb] at hd
    cases doc with
    | some d0 =>
      have h0 := h d0 rfl
      simp only [Option.some_inj] at hd
      subst hd
      simp only [filesCountInvariant] at h0 ⊢
      simp [h0, List.length_append]
    | none =>
      simp only [Option.some_inj] at hd
      subst hd
      simp [filesCountInvariant]

/-- Claim C4 (bug evidence): the pipeline's table-analysis stage never
writes `tables/analysis.json` — the call site passes two positional
arguments to the one-parameter coroutine function (and does not await
it), so the swallowed `TypeError` leaves the workspace unchanged — even
though the body of `analyze_tables_with_llm` itself would have
persisted the analysis for the same workspace. -/
theorem C4_pipeline_table_analysis_never_runs :
    pipelineTableAnalysisStage
      { tablesJson := some [{ sheet := some "Sales", headers := ["a"], data := [["1"]] }],
        analysisJson := none } (some "A") =
      { tablesJson := some [{ sheet := some "Sales", headers := ["a"], data := [["1"]] }],
        analysisJson := none } ∧
    (analyze_tables_with_llm
      { tablesJson := some [{ sheet := some "Sales", headers := ["a"], data := [["1"]] }],
        analysisJson := none } (some "A")).analysisJson = some "A" ∧
    pipelineTableAnalysisArgCount ≠ analyzeTablesParamCount := by
  refine ⟨rfl, rfl, by decide⟩

/-- Claim C6 counterexample: with empty text, no tables and no images,
a provided `user_description` of length ≤ 5 (here `"abc"`) is NOT used
in the default summary — the code falls back to `"Image file: " ++
source_id` because of the `len(user_description) > 5` test, refuting
the claim that the summary ends with the user_description whenever one
was provided. -/
theorem C6_short_description_ignored :
    run_agent_guard "" 0 0 "image" "doc1" "" "h" (some "abc") =
      some { source_id := "doc1", source := "image", language := "unknown", author := "",
             user_description := "abc",
             summary := "No extractable text found. Image file: doc1",
             tables_count := 0, file_hash := "h", clean_content := "" } ∧
    "No extractable text found. Image file: doc1" ≠
      "No extractable text found. abc" := by
  exact ⟨by decide, by decide⟩

/-- Claim C6 (amended): with empty preprocessed text, zero tables and
zero image-analysis records, the LLM is skipped and the emitted default
record has language `"unknown"` and summary `"No extractable text
found. "` followed by the user_description when one of length greater
than 5 was provided, otherwise by `"Image file: " ++ source_id`. -/
theorem C6_empty_content_guardrail (source source_id author file_hash : String)
    (ud : Option String) :
    ∃ r, run_agent_guard "" 0 0 source source_id author file_hash ud = some r ∧
      r.language = "unknown" ∧
      r.summary = "No extractable text found. " ++ basicSummary ud source_id ∧
      (∀ u, ud = some u → 5 < u.length →
        r.summary = "No extractable text found. " ++ u) ∧
      (ud = none → r.summary = "No extractable text found. Image file: " ++ source_id) := by
  refine ⟨{ source_id := source_id, source := source, language := "unknown",
            author := author, user_description := ud.getD "",
            summary := "No extractable text found. " ++ basicSummary ud source_id,
            tables_count := 0, file_hash := file_hash, clean_content := "" },
          ?_, rfl, rfl, ?_, ?_⟩
  · unfold run_agent_guard
    rw [if_neg (by decide)]
  · intro u hu hlen
    subst hu
    have hne : u.isEmpty = false := by
      rcases h : u.isEmpty with _ | _
      · rfl
      · rw [String.isEmpty_iff] at h
        subst h
        simp at hlen
    simp [basicSummary, hne, hlen]
  · intro h
    subst h
    rfl

/-- Witness for C6 at a concrete input: a 6-character description is
used verbatim in the default summary. -/
theorem C6_empty_content_guardrail_witness :
    ∃ r, run_agent_guard "" 0 0 "image" "d1" "" "h" (some "mydesc") = some r ∧
      r.language = "unknown" ∧
      r.summary = "No extractable text found. mydesc" := by
  obtain ⟨r, h1, h2, -, h4, -⟩ :=
    C6_empty_content_guardrail "image" "d1" "" "h" (some "mydesc")
  exact ⟨r, h1, h2, h4 "mydesc" rfl (by decide)⟩

/-- Claim C5 counterexample: an image whose OCR result has confidence
exactly 0.70 and 10 characters of text is accepted by
`should_use_ocr`, yet the pipeline's VLM stage still selects it for a
VLM call — `analyze_extracted_images` is invoked on all extracted
images (pipeline line 296) and filters only by file size, refuting the
claim that an OCR-accepted image is not sent to the VLM. -/
theorem C5_accepted_image_still_sent_to_vlm :
    should_use_ocr (70/100) "helloworld" none = true ∧
    vlmSelectedImages [{ name := "img1.png", size := 6000 }] =
      [{ name := "img1.png", size := 6000 }] := by
  constructor
  · simp only [should_use_ocr, Option.getD_none]
    rw [Bool.and_eq_true]
    constructor
    · rw [decide_eq_true_eq]
      norm_num [OCR_THRESHOLD, CONFIDENCE_STANDARD]
    · decide
  · simp only [vlmSelectedImages, MIN_IMAGE_SIZE_KB, MAX_IMAGES_TO_ANALYZE]
    have hf : ([{ name := "img1.png", size := 6000 }] : List ImageFile).filter
        (fun i => i.size > 5 * 1024) = [{ name := "img1.png", size := 6000 }] := by
      decide
    rw [hf, List.mergeSort_singleton]
    decide

/-- Claim C5 (amended): any OCR result with confidence at least 0.70
and at least 10 characters of stripped text is accepted by
`should_use_ocr` (its actual text threshold is more than 5 characters);
but acceptance does not exempt the image from the VLM: every image
larger than 5 KB is selected for a VLM call by the pipeline's
unconditional VLM stage. -/
theorem C5_ocr_acceptance_and_vlm_selection (conf : ℚ) (text : String) (img : ImageFile)
    (h1 : 70/100 ≤ conf) (h2 : 10 ≤ (pyStrip text).length) (h3 : 5 * 1024 < img.size) :
    should_use_ocr conf text none = true ∧ img ∈ vlmSelectedImages [img] := by
  constructor
  · simp only [should_use_ocr, Option.getD_none]
    rw [Bool.and_eq_true, Bool.and_eq_true]
    refine ⟨decide_eq_true ?_, ?_, decide_eq_true (by omega)⟩
    · calc OCR_THRESHOLD = 70/100 := by norm_num [OCR_THRESHOLD, CONFIDENCE_STANDARD]
        _ ≤ conf := h1
    · rcases h : text.isEmpty with _ | _
      · rfl
      · rw [String.isEmpty_iff] at h
        subst h
        revert h2
        decide
  · simp only [vlmSelectedImages, MIN_IMAGE_SIZE_KB, MAX_IMAGES_TO_ANALYZE]
    have hf : ([img] : List ImageFile).filter (fun i => i.size > 5 * 1024) = [img] := by
      rw [List.filter_cons]
      rw [if_pos (by simpa using h3)]
      rfl
    rw [hf, List.mergeSort_singleton]
    simp

/-- Witness for C5 at a concrete input. -/
theorem C5_ocr_acceptance_and_vlm_selection_witness :
    should_use_ocr (8/10) "some ocr text" none = true ∧
    ({ name := "chart.png", size := 9000 } : ImageFile) ∈
      vlmSelectedImages [{ name := "chart.png", size := 9000 }] :=
  C5_ocr_acceptance_and_vlm_selection (8/10) "some ocr text"
    { name := "chart.png", size := 9000 } (by norm_num) (by decide) (by decide)

/-- Helper: a `filterMap` whose function is an if-guarded `some`
equals a `filter` followed by a `map`. -/
theorem filterMap_ite_none {α β : Type} (c : α → Bool) (f : α → β) (l : List α) :
    l.filterMap (fun a => if c a then none else some (f a)) =
      (l.filter (fun a => !c a)).map f := by
  induction l with
  | nil => rfl
  | cons a l ih =>
    rw [List.filterMap_cons, List.filter_cons]
    rcases hc : c a with _ | _
    · simp [hc, ih]
    · simp [hc, ih]

/-- Helper: for string cells, the kept-cell test of
`create_excel_chunks` is exactly "the stripped cell is nonempty". -/
theorem rowCellKept_eq_strip_nonempty (v : String) :
    rowCellKept v = !(pyStrip v).isEmpty := by
  rcases h : v.isEmpty with _ | _
  · simp [rowCellKept, h]
  · rw [String.isEmpty_iff] at h
    subst h
    decide

/-- Helper: the `row_parts` list of the source equals the spec-side
pair rendering. -/
theorem rowParts_eq_specRowPairs (headers row : List String) :
    rowParts headers row = specRowPairs headers row := by
  unfold rowParts specRowPairs
  rw [filterMap_ite_none (fun p => (pyStrip p.2).isEmpty)
    (fun p : String × String => p.1 ++ ": " ++ p.2)]
  congr 1
  exact List.filter_congr (fun p _ => by
    rw [rowCellKept_eq_strip_nonempty])

/-- Claim C8 (amended): for a table with nonempty headers and data,
row-based chunking emits one chunk per data row having at least one
nonempty cell (a row whose cells are all empty under its headers emits
no chunk), with text `"[<sheet> - Row <n>] <hdr1>: <v1>, …"` (empty
cells omitted), the first data row being numbered 2 and subsequent
rows incrementing by 1. -/
theorem C8_row_chunk_texts (t : ExcelTable) (h1 : t.headers ≠ []) (h2 : t.data ≠ []) :
    tableChunks t =
      (t.data.enum.filter (fun p => !(specRowPairs t.headers p.2).isEmpty)).map
        (fun p => specRowChunk (sheetNameOf t) (p.1 + 2) t.headers p.2) := by
  unfold tableChunks
  rw [if_neg (by simp [List.isEmpty_iff, h1, h2])]
  simp only [rowParts_eq_specRowPairs]
  rw [filterMap_ite_none (fun p : Nat × List String => (specRowPairs t.headers p.2).isEmpty)
    (fun p : Nat × List String =>
      "[" ++ sheetNameOf t ++ " - Row " ++ toString (p.1 + 2) ++ "] " ++
        String.intercalate ", " (specRowPairs t.headers p.2))]
  simp only [specRowChunk]

/-- Witness for C8 at a concrete table. -/
theorem C8_row_chunk_texts_witness :
    tableChunks { sheet := some "Sales", headers := ["date", "amount"],
                  data := [["2024-01-01", "100"], ["2024-01-02", "200"]] } =
      (({ sheet := some "Sales", headers := ["date", "amount"],
          data := [["2024-01-01", "100"], ["2024-01-02", "200"]] } : ExcelTable).data.enum.filter
        (fun p => !(specRowPairs ["date", "amount"] p.2).isEmpty)).map
        (fun p => specRowChunk "Sales" (p.1 + 2) ["date", "amount"] p.2) :=
  C8_row_chunk_texts
    { sheet := some "Sales", headers := ["date", "amount"],
      data := [["2024-01-01", "100"], ["2024-01-02", "200"]] }
    (by decide) (by decide)

/-- Claim C8 counterexample: a table with two data rows, one of which
has only an empty cell, produces a single chunk — not one chunk per
data row. -/
theorem C8_not_one_chunk_per_row :
    create_excel_chunks [{ sheet := some "S", headers := ["A"],
                           data := [["x"], [""]] }] = ["[S - Row 2] A: x"] ∧
    ([["x"], [""]] : List (List String)).length = 2 := by
  exact ⟨by decide, by decide⟩

/-- Helper: the selection fold of the semantic cache is an argmax —
the accumulator never decreases, every scanned candidate's similarity
is bounded by the final best, and a returned key belongs to a scanned
candidate whose similarity equals the final best (unless the
accumulator was returned unchanged). -/
theorem bcStep_foldl_spec (cands : List (Option EmbeddingEntry)) :
    ∀ (b : ℚ) (key : Option String),
      b ≤ (cands.foldl bcStep (b, key)).1 ∧
      (∀ e ∈ cands.filterMap id, e.sim ≤ (cands.foldl bcStep (b, key)).1) ∧
      (cands.foldl bcStep (b, key) = (b, key) ∨
        ∃ e ∈ cands.filterMap id, e.sim = (cands.foldl bcStep (b, key)).1 ∧
          (cands.foldl bcStep (b, key)).2 = some e.response_key) := by
  induction cands with
  | nil => exact fun b key => ⟨le_refl b, by simp, Or.inl rfl⟩
  | cons c cs ih =>
    intro b key
    cases c with
    | none =>
      obtain ⟨h1, h2, h3⟩ := ih b key
      refine ⟨h1, ?_, ?_⟩
      · simpa using h2
      · simpa using h3
    | some e =>
      by_cases hlt : b < e.sim
      · obtain ⟨h1, h2, h3⟩ := ih e.sim (some e.response_key)
        have hstep : (some e :: cs).foldl bcStep (b, key) =
            cs.foldl bcStep (e.sim, some e.response_key) := by
          simp only [List.foldl_cons, bcStep, if_pos hlt]
        rw [hstep]
        refine ⟨le_trans (le_of_lt hlt) h1, ?_, ?_⟩
        · intro e2 he2
          simp only [List.filterMap_cons, id, Option.some.injEq] at he2
          rcases List.mem_cons.mp he2 with rfl | hmem
          · exact h1
          · exact h2 e2 hmem
        · rcases h3 with heq | ⟨e2, hmem, hsim, hk⟩
          · right
            exact ⟨e, by simp, by rw [heq], by rw [heq]⟩
          · right
            exact ⟨e2, by simp [hmem], hsim, hk⟩
      · obtain ⟨h1, h2, h3⟩ := ih b key
        have hstep : (some e :: cs).foldl bcStep (b, key) =
            cs.foldl bcStep (b, key) := by
          simp only [List.foldl_cons, bcStep, if_neg hlt]
        rw [hstep]
        refine ⟨h1, ?_, ?_⟩
        · intro e2 he2
          simp only [List.filterMap_cons, id, Option.some.injEq] at he2
          rcases List.mem_cons.mp he2 with rfl | hmem
          · exact le_trans (le_of_not_lt hlt) h1
          · exact h2 e2 hmem
        · rcases h3 with heq | ⟨e2, hmem, hsim, hk⟩
          · exact Or.inl heq
          · exact Or.inr ⟨e2, by simp [hmem], hsim, hk⟩

/-- Claim C7 (amended): a returned semantic cache hit is marked as a
semantic match, carries a similarity at least 0.92, and comes from a
candidate among the first 100 scanned whose similarity is maximal;
when a truthy `source_id` was given, the hit's response key passed the
substring test `":<source_id>" in key` (the code checks containment,
not a suffix). -/
theorem C7_semantic_cache_lookup (cands : List (Option EmbeddingEntry))
    (respStore : String → Option String) (source_id : Option String) (hit : SemanticHit)
    (h : get_similar_cached_response cands respStore source_id 100 = some hit) :
    hit.semantic_match = true ∧
    similarity_threshold ≤ hit.similarity ∧
    ∃ e ∈ (cands.take 100).filterMap id,
      e.sim = hit.similarity ∧
      (∀ e2 ∈ (cands.take 100).filterMap id, e2.sim ≤ e.sim) ∧
      respStore e.response_key = some hit.response ∧
      (∀ sid, source_id = some sid → sid.isEmpty = false →
        strContains e.response_key (":" ++ sid) = true) := by
  unfold get_similar_cached_response at h
  by_cases hemp : (cands.take 100).isEmpty = true
  · rw [if_pos hemp] at h
    exact absurd h (by simp)
  · rw [if_neg hemp] at h
    by_cases hth : similarity_threshold ≤ (bestCandidate (cands.take 100)).1
    · rw [if_pos hth] at h
      rcases hkey : (bestCandidate (cands.take 100)).2 with _ | key
      · rw [hkey] at h
        simp at h
      · rw [hkey] at h
        replace h :
            (if (strTruthy source_id && !(strContains key (":" ++ source_id.getD ""))) = true
             then none
             else
               match respStore key with
               | some resp => some { response := resp, semantic_match := true,
                                     similarity := (bestCandidate (cands.take 100)).1 }
               | none => none) = some hit := h
        by_cases hsid :
            (strTruthy source_id && !(strContains key (":" ++ source_id.getD ""))) = true
        · rw [if_pos hsid] at h
          simp at h
        · rw [if_neg hsid] at h
          rcases hresp : respStore key with _ | resp
          · rw [hresp] at h
            simp at h
          · rw [hresp] at h
            simp only [Option.some_inj] at h
            subst h
            refine ⟨rfl, hth, ?_⟩
            obtain ⟨-, hmax, hor⟩ := bcStep_foldl_spec (cands.take 100) 0 none
            rcases hor with heq | ⟨e, hmem, hsim, hkk⟩
            · have : (bestCandidate (cands.take 100)).2 = none := by
                unfold bestCandidate
                rw [heq]
              rw [hkey] at this
              exact absurd this (by simp)
            · have hke : key = e.response_key := by
                have h2 : (bestCandidate (cands.take 100)).2 = some e.response_key := hkk
                rw [hkey] at h2
                exact Option.some_inj.mp h2
              refine ⟨e, hmem, hsim, ?_, ?_, ?_⟩
              · intro e2 he2
                rw [hsim]
                exact hmax e2 he2
              · rw [← hke]
                exact hresp
              · intro sid hs hne
                subst hs
                rw [← hke]
                have ht : strTruthy (some sid) = true := by
                  simp [strTruthy, hne]
                rcases hc : strContains key (":" ++ sid) with _ | _
                · exact absurd (by simp [ht, hc] : (strTruthy (some sid) &&
                    !(strContains key (":" ++ (some sid : Option String).getD ""))) = true) hsid
                · rfl
    · rw [if_neg hth] at h
      simp at h

/-- Witness for C7 at a concrete cache state: one cached embedding
with similarity 0.95 whose response key carries the requested
source_id suffix. -/
theorem C7_semantic_cache_lookup_witness :
    ({ response := "cached answer", semantic_match := true,
       similarity := 19/20 } : SemanticHit).semantic_match = true ∧
    similarity_threshold ≤
      ({ response := "cached answer", semantic_match := true,
         similarity := 19/20 } : SemanticHit).similarity ∧
    ∃ e ∈ (([some { sim := 19/20, response_key := "rag:response:ab:doc" }] :
        List (Option EmbeddingEntry)).take 100).filterMap id,
      e.sim = ({ response := "cached answer", semantic_match := true,
                 similarity := 19/20 } : SemanticHit).similarity ∧
      (∀ e2 ∈ (([some { sim := 19/20, response_key := "rag:response:ab:doc" }] :
          List (Option EmbeddingEntry)).take 100).filterMap id, e2.sim ≤ e.sim) ∧
      (fun k => if k = "rag:response:ab:doc" then some "cached answer" else none)
          e.response_key =
        some ({ response := "cached answer", semantic_match := true,
                similarity := 19/20 } : SemanticHit).response ∧
      (∀ sid, (some "doc" : Option String) = some sid → sid.isEmpty = false →
        strContains e.response_key (":" ++ sid) = true) := by
  apply C7_semantic_cache_lookup
    [some { sim := 19/20, response_key := "rag:response:ab:doc" }]
    (fun k => if k = "rag:response:ab:doc" then some "cached answer" else none)
    (some "doc")
  have hbest : bestCandidate [some { sim := 19/20, response_key := "rag:response:ab:doc" }] =
      (19/20, some "rag:response:ab:doc") := by
    unfold bestCandidate bcStep
    simp only [List.foldl]
    norm_num
  unfold get_similar_cached_response
  rw [show (([some ({ sim := 19/20, response_key := "rag:response:ab:doc" } :
      EmbeddingEntry)]).take 100) =
      [some { sim := 19/20, response_key := "rag:response:ab:doc" }] from rfl]
  rw [hbest]
  norm_num [similarity_threshold, strTruthy, strContains]
  intro _ hcs
  exact absurd hcs (by decide)

/-- Claim C7 counterexample: with a requested `source_id` of `"doc"`,
a cached response whose key ends in `":docx"` is still returned — the
code's containment test `":doc" in key` passes although the key does
not end with the suffix `":doc"`, refuting the claim's suffix
condition. -/
theorem C7_substring_is_not_suffix :
    get_similar_cached_response
      [some { sim := 19/20, response_key := "rag:response:ab:docx" }]
      (fun k => if k = "rag:response:ab:docx" then some "resp" else none)
      (some "doc") 100 =
      some { response := "resp", semantic_match := true, similarity := 19/20 } ∧
    List.isSuffixOf (":doc".data) ("rag:response:ab:docx".data) = false := by
  constructor
  · have hbest : bestCandidate
        [some { sim := 19/20, response_key := "rag:response:ab:docx" }] =
        (19/20, some "rag:response:ab:docx") := by
      unfold bestCandidate bcStep
      simp only [List.foldl]
      norm_num
    unfold get_similar_cached_response
    rw [show (([some ({ sim := 19/20, response_key := "rag:response:ab:docx" } :
        EmbeddingEntry)]).take 100) =
        [some { sim := 19/20, response_key := "rag:response:ab:docx" }] from rfl]
    rw [hbest]
    norm_num [similarity_threshold, strTruthy, strContains]
    intro _ hcs
    exact absurd hcs (by decide)
  · decide

/-- Claim C1 (amended): for file and media ingests, a file_hash already
indexed under the current session returns the `("fast_tracked",
session_id)` sentinel before any extraction and leaves the vector store
untouched; URL and YouTube ingests (whose file_hash is the MD5 of the
URL string) never take this fast-track path — a repeated URL/YouTube
ingest runs the full pipeline again and returns the normal
`(base, result)` pair, with only the re-indexing of chunks skipped. -/
theorem C1_same_session_fast_track :
    (∀ (kind : InputKind), kind = .file ∨ kind = .media →
      ∀ (fh : String) (sid : Option String) (store : Store) (ex : ExtractionData),
        check_hash_exists store fh sid = true →
        pipelineIngest kind fh sid store ex =
          { result := .fastTracked sid, store := store })
    ∧ (∀ (kind : InputKind), kind = .url ∨ kind = .youtube →
      ∀ (fh : String) (sid : Option String) (store : Store) (ex : ExtractionData),
        fh.isEmpty = false → check_hash_exists store fh none = true →
        pipelineIngest kind fh sid store ex =
          { result := .processed ex.base, store := store }) := by
  constructor
  · intro kind hkind fh sid store ex hses
    rcases hkind with rfl | rfl
    · unfold pipelineIngest
      rw [if_pos hses]
    · unfold pipelineIngest
      rw [if_pos hses]
  · intro kind hkind fh sid store ex hne hglob
    have hfull : fullProcess fh store ex =
        { result := .processed ex.base, store := store } := by
      unfold fullProcess
      rw [if_pos (by rw [hne, hglob]; rfl)]
    rcases hkind with rfl | rfl
    · unfold pipelineIngest
      exact hfull
    · unfold pipelineIngest
      exact hfull

/-- Witness for C1 at concrete inputs: a file re-upload in the same
session is fast-tracked with the store unchanged, and a repeated URL
ingest with the same store returns the normal processed pair. -/
theorem C1_same_session_fast_track_witness :
    pipelineIngest .file "h256" (some "s1")
      [{ text := "chunk one",
         meta := some { file_hash := some "h256", session_id := some "s1" } }]
      { base := "tmp/doc", chunks := [], metadata := [] } =
      { result := .fastTracked (some "s1"),
        store := [{ text := "chunk one",
                    meta := some { file_hash := some "h256", session_id := some "s1" } }] } ∧
    pipelineIngest .url "md5url" (some "s1")
      [{ text := "chunk one",
         meta := some { file_hash := some "md5url", session_id := some "s1" } }]
      { base := "tmp/doc", chunks := [], metadata := [] } =
      { result := .processed "tmp/doc",
        store := [{ text := "chunk one",
                    meta := some { file_hash := some "md5url", session_id := some "s1" } }] } := by
  constructor
  · exact C1_same_session_fast_track.1 .file (Or.inl rfl) "h256" (some "s1")
      [{ text := "chunk one",
         meta := some { file_hash := some "h256", session_id := some "s1" } }]
      { base := "tmp/doc", chunks := [], metadata := [] } (by decide)
  · exact C1_same_session_fast_track.2 .url (Or.inl rfl) "md5url" (some "s1")
      [{ text := "chunk one",
         meta := some { file_hash := some "md5url", session_id := some "s1" } }]
      { base := "tmp/doc", chunks := [], metadata := [] } (by decide) (by decide)

/-- Claim C1 counterexample: a second URL ingest with identical
file_hash (MD5 of the URL) and identical session_id does not return
the `("fast_tracked", session_id)` sentinel — the fast-track check runs
only for file and media inputs, so the URL ingest re-runs extraction
and returns the normal `(base, result)` pair. -/
theorem C1_repeated_url_ingest_not_fast_tracked :
    pipelineIngest .url "6cd3556d" (some "s1")
      [{ text := "chunk one",
         meta := some { source_id := some "orig", session_id := some "s1",
                        file_hash := some "6cd3556d" } }]
      { base := "tmp/doc", chunks := [], metadata := [] } =
      { result := .processed "tmp/doc",
        store := [{ text := "chunk one",
                    meta := some { source_id := some "orig", session_id := some "s1",
                                   file_hash := some "6cd3556d" } }] } ∧
    PipelineResult.processed "tmp/doc" ≠ PipelineResult.fastTracked (some "s1") := by
  exact ⟨by decide, by decide⟩

/-- Helper: zipping the texts of a pair list with its (rewritten)
metadata reassembles one entry per pair. -/
theorem zipWith_entry_map (l : List (String × ChunkMeta)) (g : ChunkMeta → ChunkMeta) :
    List.zipWith (fun t m => Entry.mk t (some m))
      ((l.map (fun p => p.1)).map truncateChunk) ((l.map (fun p => p.2)).map g) =
      l.map (fun p => Entry.mk (truncateChunk p.1) (some (g p.2))) := by
  induction l with
  | nil => rfl
  | cons p l ih => simp [ih]

/-- Helper: indexing the texts of a pair list with its rewritten
metadata appends one entry per pair. -/
theorem index_chunks_pairs (store : Store) (l : List (String × ChunkMeta))
    (g : ChunkMeta → ChunkMeta) (hne : l ≠ []) :
    index_chunks store (l.map (fun p => p.1)) (some ((l.map (fun p => p.2)).map g)) =
      store ++ l.map (fun p => Entry.mk (truncateChunk p.1) (some (g p.2))) := by
  have hmu : metadataUsable (some ((l.map (fun p => p.2)).map g))
      ((l.map (fun p => p.1)).map truncateChunk) = true := by
    rcases l with _ | ⟨p, l⟩
    · exact absurd rfl hne
    · simp [metadataUsable]
  unfold index_chunks
  rw [if_pos hmu, Option.getD_some, zipWith_entry_map]

/-- Claim C2 (amended): for every file or media ingest whose file_hash
exists in the vector store only under other session_ids, the pipeline
appends exactly the chunks of the first session found for that hash
(not the union across sessions), each with its metadata `session_id`
rewritten to the current session (or `"default"` when unscoped), and
returns the `source_id` stored in the first such chunk's metadata
(URL/YouTube ingests never take this clone path, see the C1
theorems). -/
theorem C2_clone_copies_first_session (kind : InputKind)
    (hkind : kind = .file ∨ kind = .media)
    (store : Store) (fh : String) (sid : Option String) (ex : ExtractionData)
    (hsess : check_hash_exists store fh sid = false)
    (hglob : check_hash_exists store fh none = true) :
    ∃ t0 m0 rest, hashPaired store fh = (t0, m0) :: rest ∧
      pipelineIngest kind fh sid store ex =
        { result := .cloned (m0.source_id.getD "unknown") sid
          store := store ++
            (((t0, m0) :: rest).filter (fun q => q.2.session_id == m0.session_id)).map
              (fun q => Entry.mk (truncateChunk q.1)
                (some { q.2 with session_id := some (sessionOrDefault sid) })) } := by
  have hnil : hashPaired store fh ≠ [] := by
    unfold check_hash_exists at hglob
    rw [List.any_eq_true] at hglob
    obtain ⟨e, he, hm⟩ := hglob
    rcases hmeta : e.meta with _ | m
    · rw [matchesHash, hmeta] at hm
      exact absurd hm (by simp)
    · have hmem : (e.text, m) ∈ hashPaired store fh := by
        unfold hashPaired
        rw [List.mem_filterMap]
        exact ⟨e, List.mem_filter.mpr ⟨he, hm⟩, by rw [hmeta]; rfl⟩
      intro hni
      rw [hni] at hmem
      exact absurd hmem (List.not_mem_nil _)
  obtain ⟨⟨t0, m0⟩, rest, hp⟩ : ∃ p rest, hashPaired store fh = p :: rest := by
    cases hq : hashPaired store fh with
    | nil => exact absurd hq hnil
    | cons p rest => exact ⟨p, rest, rfl⟩
  refine ⟨t0, m0, rest, hp, ?_⟩
  have huniq : ((t0, m0) :: rest).filter (fun q => q.2.session_id == m0.session_id) =
      (t0, m0) :: rest.filter (fun q => q.2.session_id == m0.session_id) := by
    rw [List.filter_cons, if_pos (by simp)]
  have hget : get_chunks_by_hash store fh = some
      { chunks := (((t0, m0) :: rest).filter
          (fun q => q.2.session_id == m0.session_id)).map (fun p => p.1)
        metadata := (((t0, m0) :: rest).filter
          (fun q => q.2.session_id == m0.session_id)).map (fun p => p.2) } := by
    unfold get_chunks_by_hash
    rw [hp]
  have hindex := index_chunks_pairs store
    (((t0, m0) :: rest).filter (fun q => q.2.session_id == m0.session_id))
    (fun m => { m with session_id := some (sessionOrDefault sid) })
    (by rw [huniq]; exact List.cons_ne_nil _ _)
  rcases hkind with rfl | rfl <;>
  · simp only [pipelineIngest]
    rw [hsess]
    rw [if_neg (by simp), if_pos hglob, hget]
    simp only [huniq, List.map_cons, List.isEmpty_cons]
    rw [if_neg (by simp)]
    simp only [huniq, List.map_cons] at hindex
    rw [hindex]

/-- Witness for C2 at a concrete store holding the same hash under two
sessions: the clone into session `"s2"` copies only the first
session's chunk, rewrites its `session_id`, and returns the stored
`source_id`. -/
theorem C2_clone_copies_first_session_witness :
    ∃ t0 m0 rest,
      hashPaired
        [{ text := "c1", meta := some { source_id := some "orig", session_id := some "s1", file_hash := some "hh" } },
         { text := "c2", meta := some { session_id := some "sZ", file_hash := some "hh" } }] "hh" = (t0, m0) :: rest ∧
      pipelineIngest .file "hh" (some "s2")
        [{ text := "c1", meta := some { source_id := some "orig", session_id := some "s1", file_hash := some "hh" } },
         { text := "c2", meta := some { session_id := some "sZ", file_hash := some "hh" } }]
        { base := "tmp/doc", chunks := [], metadata := [] } =
        { result := .cloned (m0.source_id.getD "unknown") (some "s2")
          store :=
            [{ text := "c1", meta := some { source_id := some "orig", session_id := some "s1", file_hash := some "hh" } },
             { text := "c2", meta := some { session_id := some "sZ", file_hash := some "hh" } }] ++
              (((t0, m0) :: rest).filter (fun q => q.2.session_id == m0.session_id)).map
                (fun q => Entry.mk (truncateChunk q.1)
                  (some { q.2 with session_id := some (sessionOrDefault (some "s2")) })) } :=
  C2_clone_copies_first_session .file (Or.inl rfl)
    [{ text := "c1", meta := some { source_id := some "orig", session_id := some "s1", file_hash := some "hh" } },
     { text := "c2", meta := some { session_id := some "sZ", file_hash := some "hh" } }]
    "hh" (some "s2") { base := "tmp/doc", chunks := [], metadata := [] }
    (by decide) (by decide)

/-- Claim C2 counterexample: a URL ingest whose hash exists only under
another session clones nothing — the clone path runs only for file and
media inputs, so the store is unchanged (zero chunks under the new
session) and the returned value is the normal processed pair, not the
stored `source_id`. -/
theorem C2_url_ingest_does_not_clone :
    pipelineIngest .url "hh" (some "s2")
      [{ text := "c1", meta := some { source_id := some "orig", session_id := some "s1", file_hash := some "hh" } }]
      { base := "tmp/doc", chunks := [], metadata := [] } =
      { result := .processed "tmp/doc",
        store := [{ text := "c1", meta := some { source_id := some "orig", session_id := some "s1", file_hash := some "hh" } }] } ∧
    (([{ text := "c1", meta := some { source_id := some "orig", session_id := some "s1", file_hash := some "hh" } }] : Store).filter
      (matchesHashSession "hh" "s2")).length = 0 ∧
    (([{ text := "c1", meta := some { source_id := some "orig", session_id := some "s1", file_hash := some "hh" } }] : Store).filter
      (matchesHashSession "hh" "s1")).length = 1 ∧
    PipelineResult.processed "tmp/doc" ≠ PipelineResult.cloned "orig" (some "s2") := by
  exact ⟨by decide, by decide, by decide, by decide⟩

end DocuMind
